import Mathlib

/-!
Verification of the canadensis transport library against its design document.

Each section shallowly embeds one part of the Rust source:
* the serial transmitter (canadensis_serial/src/tx.rs),
* the redundant frame queue (canadensis_can/src/redundant/redundant_queue.rs),
* the bxCAN driver wrapper (canadensis_bxcan/src/lib.rs),
* the classic-CAN transfer fragmentor (exercised by canadensis_can/tests/tx.rs),
* the bit array (canadensis_encoding/src/bits.rs).

Pure helper code that lives in crates outside the excerpt (the COBS codec, the
CRC functions, the wraparound-safe timestamp comparison, the CAN ID codec) is
modelled from the design document; each such definition says so in its doc
comment.
-/

set_option autoImplicit false

/-- Result of a fallible operation returning unit or OutOfMemoryError, as in
Result((), OutOfMemoryError) from canadensis_core. -/
inductive OomResult where
  | ok
  | memErr
deriving DecidableEq

/-! ## Serial transport: canadensis_serial/src/tx.rs -/

/-- Modelled from the spec: worst-case COBS-encoded size of n raw bytes
(cobs::escaped_size, not under src/). Encoded length is
raw_length + ceil(raw_length / 254) + 1. -/
def escapedSize (n : Nat) : Nat := n + (n + 253) / 254 + 1

/-- Modelled from the spec: one COBS group. Takes the longest zero-free group of
at most `cap` bytes from the input. Returns the group, the remaining input, and
whether a zero byte was consumed. -/
def cobsGroup : Nat → List Nat → List Nat × List Nat × Bool
  | _, [] => ([], [], false)
  | 0, rest => ([], rest, false)
  | cap + 1, b :: rest =>
    if b = 0 then ([], rest, true)
    else
      let r := cobsGroup cap rest
      (b :: r.1, r.2.1, r.2.2)

/-- Modelled from the spec: COBS byte stuffing, fuelled recursion over the input. -/
def cobsEncodeAux : Nat → List Nat → List Nat
  | 0, _ => []
  | fuel + 1, data =>
    let g := cobsGroup 254 data
    if g.2.2 then (g.1.length + 1) :: (g.1 ++ cobsEncodeAux fuel g.2.1)
    else if g.2.1.isEmpty then (g.1.length + 1) :: g.1
    else 255 :: (g.1 ++ cobsEncodeAux fuel g.2.1)

/-- Modelled from the spec: COBS encoding of a byte sequence
(cobs::escape_from_iter, not under src/). The encoded content contains no zero
byte; zero bytes of the input are removed by the stuffing. -/
def cobsEncode (data : List Nat) : List Nat := cobsEncodeAux (data.length + 1) data

/-- Modelled from the spec: one bit step of the reflected CRC-32C (Castagnoli)
algorithm. -/
def crc32cBitStep (crc : Nat) : Nat :=
  if crc % 2 = 1 then (crc / 2) ^^^ 0x82F63B78 else crc / 2

/-- Modelled from the spec: folds one byte into a CRC-32C state. -/
def crc32cByte (crc b : Nat) : Nat :=
  crc32cBitStep^[8] (crc ^^^ (b % 256))

/-- Modelled from the spec: CRC-32C of the payload alone (make_payload_crc, not
under src/). -/
def crc32c (data : List Nat) : Nat :=
  (data.foldl crc32cByte 0xFFFFFFFF) ^^^ 0xFFFFFFFF

/-- Little-endian byte layout of a 32-bit value, as zerocopy lays out a u32. -/
def u32LeBytes (x : Nat) : List Nat :=
  [x % 256, x / 2 ^ 8 % 256, x / 2 ^ 16 % 256, x / 2 ^ 24 % 256]

/-- PER_FRAME_ESCAPED_OVERHEAD from tx.rs line 20: the 24-byte serial header
plus the 4-byte payload CRC. -/
def perFrameEscapedOverhead : Nat := 24 + 4

/-- DELIMITER from tx.rs line 24. -/
def delimiterByte : Nat := 0

/-- Shallow embedding of SerialTransmitter::push (tx.rs lines 53-101).

The transmit queue is the byte deque front first, and cap is the compile-time
queue capacity C. The serialized 24 header bytes are passed in directly, since
SerialHeader (crate::header, not under src/) is an opaque fixed-size record
here; its exact contents do not affect the queue discipline. The first
capacity check uses the worst-case escaped size, the second uses the actual
encoded length, and only then are the delimiter, the encoded bytes, and the
closing delimiter appended. -/
def serialPush (cap : Nat) (queue : List Nat) (headerBytes payload : List Nat) :
    OomResult × List Nat :=
  let frameLength := payload.length + perFrameEscapedOverhead
  let lengthOnWire := escapedSize frameLength + 2
  if lengthOnWire > cap - queue.length then (.memErr, queue)
  else
    let encoded := cobsEncode (headerBytes ++ payload ++ u32LeBytes (crc32c payload))
    if encoded.length + 2 > cap - queue.length then (.memErr, queue)
    else (.ok, queue ++ delimiterByte :: (encoded ++ [delimiterByte]))

/-- Result of a serial driver send_byte call in the nb style: success,
would-block, or a driver error. -/
inductive SendOutcome (E : Type) where
  | ok
  | wouldBlock
  | err (e : E)
deriving DecidableEq

/-- A model serial driver: a scripted list of outcomes consumed one per
send_byte call (an exhausted script blocks), plus the log of bytes accepted so
far. -/
structure SerialDriver (E : Type) where
  script : List (SendOutcome E)
  sent : List Nat
deriving DecidableEq

/-- One send_byte call on the model driver. The byte is recorded as sent only
when the driver accepts it. -/
def sendByte {E : Type} (d : SerialDriver E) (b : Nat) : SendOutcome E × SerialDriver E :=
  match d.script with
  | [] => (.wouldBlock, d)
  | .ok :: rest => (.ok, { script := rest, sent := d.sent ++ [b] })
  | o :: rest => (o, { d with script := rest })

/-- Result of SerialTransmitter::flush in the nb style. -/
inductive FlushResult (E : Type) where
  | ok
  | wouldBlock
  | driver (e : E)
deriving DecidableEq

/-- Shallow embedding of SerialTransmitter::flush (tx.rs lines 103-124): pop
bytes from the front, send each; on failure push the byte back on the front and
propagate the error. -/
def serialFlush {E : Type} : List Nat → SerialDriver E →
    FlushResult E × List Nat × SerialDriver E
  | [], d => (.ok, [], d)
  | b :: rest, d =>
    match sendByte d b with
    | (.ok, d1) => serialFlush rest d1
    | (.wouldBlock, d1) => (.wouldBlock, b :: rest, d1)
    | (.err e, d1) => (.driver e, b :: rest, d1)

/-- C1: SerialTransmitter::push either appends the whole encoded frame
(delimiter, COBS-escaped header-payload-CRC, delimiter) to the byte queue, or
returns OutOfMemory leaving the queue unchanged; in particular it returns
OutOfMemory whenever the worst-case escaped size plus the two delimiter bytes
exceeds the remaining queue capacity, and it never enqueues part of a frame. -/
theorem serial_push_all_or_nothing (cap : Nat) (queue headerBytes payload : List Nat) :
    (((serialPush cap queue headerBytes payload).1 = .memErr ∧
        (serialPush cap queue headerBytes payload).2 = queue) ∨
      ((serialPush cap queue headerBytes payload).1 = .ok ∧
        (serialPush cap queue headerBytes payload).2 =
          queue ++ delimiterByte ::
            (cobsEncode (headerBytes ++ payload ++ u32LeBytes (crc32c payload)) ++
              [delimiterByte]))) ∧
    (escapedSize (payload.length + perFrameEscapedOverhead) + 2 > cap - queue.length →
      (serialPush cap queue headerBytes payload).1 = .memErr ∧
        (serialPush cap queue headerBytes payload).2 = queue) := by
  unfold serialPush
  by_cases h1 : escapedSize (payload.length + perFrameEscapedOverhead) + 2 > cap - queue.length
  · simp only [if_pos h1]
    refine ⟨Or.inl ⟨?_, ?_⟩, fun _ => ⟨?_, ?_⟩⟩ <;> trivial
  · simp only [if_neg h1]
    by_cases h2 :
      (cobsEncode (headerBytes ++ payload ++ u32LeBytes (crc32c payload))).length + 2 >
        cap - queue.length
    · simp only [if_pos h2]
      refine ⟨Or.inl ⟨?_, ?_⟩, fun h => absurd h h1⟩ <;> trivial
    · simp only [if_neg h2]
      refine ⟨Or.inr ⟨?_, ?_⟩, fun h => absurd h h1⟩ <;> trivial

/-- Closed witness for C1 at a concrete input where the worst-case check fails. -/
theorem serial_push_all_or_nothing_witness :
    (escapedSize (([] : List Nat).length + perFrameEscapedOverhead) + 2 > 0 - ([] : List Nat).length →
      (serialPush 0 [] [] []).1 = .memErr ∧ (serialPush 0 [] [] []).2 = []) ∧
    (serialPush 0 [] [] []).1 = .memErr :=
  ⟨(serial_push_all_or_nothing 0 [] [] []).2, by decide⟩

/-- C5: SerialTransmitter::flush pops queued bytes in FIFO order and sends each
via the driver; when the driver rejects a byte, that byte is put back on the
front of the queue, so afterwards the queue holds exactly the not-yet-sent
bytes in their original order; Ok is returned exactly when the queue has been
fully drained. -/
theorem serial_flush_fifo {E : Type} (queue : List Nat) (d : SerialDriver E) :
    ∃ k, k ≤ queue.length ∧
      (serialFlush queue d).2.1 = queue.drop k ∧
      (serialFlush queue d).2.2.sent = d.sent ++ queue.take k ∧
      ((serialFlush queue d).1 = .ok ↔ (serialFlush queue d).2.1 = []) := by
  induction queue generalizing d with
  | nil => exact ⟨0, by simp [serialFlush]⟩
  | cons b rest ih =>
    match hs : sendByte d b with
    | (.ok, d1) =>
      obtain ⟨k, hk, hq, hsent, hres⟩ := ih d1
      refine ⟨k + 1, by simpa using Nat.succ_le_succ hk, ?_, ?_, ?_⟩
      · simpa [serialFlush, hs] using hq
      · have hd1 : d1.sent = d.sent ++ [b] := by
          unfold sendByte at hs
          match hscr : d.script with
          | [] => rw [hscr] at hs; cases hs
          | .ok :: r => rw [hscr] at hs; cases hs; rfl
          | .wouldBlock :: r => rw [hscr] at hs; cases hs
          | .err e :: r => rw [hscr] at hs; cases hs
        simp [serialFlush, hs, hsent, hd1]
      · simpa [serialFlush, hs] using hres
    | (.wouldBlock, d1) =>
      refine ⟨0, by simp, ?_, ?_, ?_⟩
      · simp [serialFlush, hs]
      · have hd1 : d1.sent = d.sent := by
          unfold sendByte at hs
          match hscr : d.script with
          | [] => rw [hscr] at hs; cases hs; rfl
          | .ok :: r => rw [hscr] at hs; cases hs
          | .wouldBlock :: r => rw [hscr] at hs; cases hs; rfl
          | .err e :: r => rw [hscr] at hs; cases hs
        simp [serialFlush, hs, hd1]
      · simp [serialFlush, hs]
    | (.err e, d1) =>
      refine ⟨0, by simp, ?_, ?_, ?_⟩
      · simp [serialFlush, hs]
      · have hd1 : d1.sent = d.sent := by
          unfold sendByte at hs
          match hscr : d.script with
          | [] => rw [hscr] at hs; cases hs
          | .ok :: r => rw [hscr] at hs; cases hs
          | .wouldBlock :: r => rw [hscr] at hs; cases hs
          | .err e1 :: r => rw [hscr] at hs; cases hs; rfl
        simp [serialFlush, hs, hd1]
      · simp [serialFlush, hs]

/-! ## Redundant queue: canadensis_can/src/redundant/redundant_queue.rs -/

/-- Operations of an inner frame sink (the FrameSink trait), modelled as
explicit state-passing functions over an abstract queue state Q and frame
type F. -/
structure SinkOps (Q F : Type) where
  tryReserve : Q → Nat → OomResult × Q
  pushFrame : Q → F → OomResult × Q

/-- State of RedundantQueue: the two inner queues plus the results of the last
try_reserve call on each (redundant_queue.rs lines 10-19). -/
structure RedundantQueue (Q0 Q1 : Type) where
  queue0 : Q0
  queue1 : Q1
  status0 : OomResult
  status1 : OomResult

/-- Result::or on unit results: keeps the first success, otherwise the second
result. -/
def oomOr : OomResult → OomResult → OomResult
  | .ok, _ => .ok
  | .memErr, b => b

/-- Shallow embedding of RedundantQueue::try_reserve (redundant_queue.rs lines
41-47): reserve on both inner queues, record both statuses, succeed if either
succeeded. -/
def redundantTryReserve {Q0 Q1 F : Type} (ops0 : SinkOps Q0 F) (ops1 : SinkOps Q1 F)
    (rq : RedundantQueue Q0 Q1) (additional : Nat) : OomResult × RedundantQueue Q0 Q1 :=
  let r0 := ops0.tryReserve rq.queue0 additional
  let r1 := ops1.tryReserve rq.queue1 additional
  (oomOr r0.1 r1.1,
    { queue0 := r0.2, queue1 := r1.2, status0 := r0.1, status1 := r1.1 })

/-- Shallow embedding of RedundantQueue::push_frame (redundant_queue.rs lines
60-75): push a clone of the frame onto each inner queue whose last reservation
succeeded, succeed if at least one push succeeded. -/
def redundantPushFrame {Q0 Q1 F : Type} (ops0 : SinkOps Q0 F) (ops1 : SinkOps Q1 F)
    (rq : RedundantQueue Q0 Q1) (frame : F) : OomResult × RedundantQueue Q0 Q1 :=
  let p0 := if rq.status0 = .ok then ops0.pushFrame rq.queue0 frame
    else (.memErr, rq.queue0)
  let p1 := if rq.status1 = .ok then ops1.pushFrame rq.queue1 frame
    else (.memErr, rq.queue1)
  (oomOr p0.1 p1.1, { rq with queue0 := p0.2, queue1 := p1.2 })

/-- C2: RedundantQueue::try_reserve invokes try_reserve on both inner queues and
returns Ok exactly when at least one inner reservation returned Ok; a
subsequent push_frame pushes the frame to exactly those inner queues whose most
recent reservation returned Ok, and returns Ok exactly when at least one of
those pushes returned Ok. -/
theorem redundant_queue_reserve_push {Q0 Q1 F : Type} (ops0 : SinkOps Q0 F)
    (ops1 : SinkOps Q1 F) (rq : RedundantQueue Q0 Q1) (additional : Nat) (frame : F) :
    ((redundantTryReserve ops0 ops1 rq additional).1 = .ok ↔
      ((ops0.tryReserve rq.queue0 additional).1 = .ok ∨
        (ops1.tryReserve rq.queue1 additional).1 = .ok)) ∧
    (redundantTryReserve ops0 ops1 rq additional).2.queue0 =
      (ops0.tryReserve rq.queue0 additional).2 ∧
    (redundantTryReserve ops0 ops1 rq additional).2.queue1 =
      (ops1.tryReserve rq.queue1 additional).2 ∧
    (redundantTryReserve ops0 ops1 rq additional).2.status0 =
      (ops0.tryReserve rq.queue0 additional).1 ∧
    (redundantTryReserve ops0 ops1 rq additional).2.status1 =
      (ops1.tryReserve rq.queue1 additional).1 ∧
    (redundantPushFrame ops0 ops1 rq frame).2.queue0 =
      (if rq.status0 = .ok then (ops0.pushFrame rq.queue0 frame).2 else rq.queue0) ∧
    (redundantPushFrame ops0 ops1 rq frame).2.queue1 =
      (if rq.status1 = .ok then (ops1.pushFrame rq.queue1 frame).2 else rq.queue1) ∧
    ((redundantPushFrame ops0 ops1 rq frame).1 = .ok ↔
      ((rq.status0 = .ok ∧ (ops0.pushFrame rq.queue0 frame).1 = .ok) ∨
        (rq.status1 = .ok ∧ (ops1.pushFrame rq.queue1 frame).1 = .ok))) := by
  refine ⟨?_, rfl, rfl, rfl, rfl, ?_, ?_, ?_⟩
  · unfold redundantTryReserve
    cases h0 : (ops0.tryReserve rq.queue0 additional).1 <;>
      cases h1 : (ops1.tryReserve rq.queue1 additional).1 <;>
        simp [oomOr, h0, h1]
  · unfold redundantPushFrame
    by_cases h0 : rq.status0 = .ok <;> simp [h0]
  · unfold redundantPushFrame
    by_cases h1 : rq.status1 = .ok <;> simp [h1]
  · unfold redundantPushFrame
    by_cases h0 : rq.status0 = .ok <;> by_cases h1 : rq.status1 = .ok <;>
      simp only [h0, h1, if_pos, if_neg, if_true, if_false] <;>
        cases hp0 : (ops0.pushFrame rq.queue0 frame).1 <;>
          cases hp1 : (ops1.pushFrame rq.queue1 frame).1 <;>
            simp [oomOr, h0, h1, hp0, hp1]

/-! ## bxCAN driver: canadensis_bxcan/src/lib.rs -/

/-- Modelled from the spec: the timestamp domain width of Microseconds32. -/
def timeWidth : Nat := 2 ^ 32

/-- Modelled from the spec: wraparound-safe timestamp comparison
(Instant::overflow_safe_compare from canadensis_core, not under src/). The
halfway distance defines the sign: a is earlier than b when the wrapped
distance from a to b is less than half the timestamp domain. -/
def overflowSafeCompare (a b : Nat) : Ordering :=
  if a % timeWidth = b % timeWidth then .eq
  else if (b + timeWidth - a % timeWidth) % timeWidth < 2 ^ 31 then .lt
  else .gt

/-- A Cyphal CAN frame (canadensis_can::Frame): a timestamp that doubles as the
transmit deadline, a 29-bit extended CAN ID, and up to 8 data bytes. -/
structure CanFrame where
  timestamp : Nat
  id : Nat
  data : List Nat
deriving DecidableEq

/-- A bxcan frame identifier: standard (11-bit) or extended (29-bit). -/
inductive BxId where
  | standard (raw : Nat)
  | extended (raw : Nat)
deriving DecidableEq

/-- A bxcan::Frame. A data frame carries some data (possibly empty); a remote
frame carries none (frame.data() returns None). -/
structure BxFrame where
  id : BxId
  data : Option (List Nat)
deriving DecidableEq

/-- The three bxCAN transmit mailboxes. -/
inductive Mailbox where
  | mb0
  | mb1
  | mb2
deriving DecidableEq

/-- DeadlineTracker (lib.rs 218-242): one optional deadline per mailbox. -/
structure DeadlineTracker where
  d0 : Option Nat
  d1 : Option Nat
  d2 : Option Nat
deriving DecidableEq

/-- DeadlineTracker::get (lib.rs 233-235). -/
def DeadlineTracker.get (t : DeadlineTracker) : Mailbox → Option Nat
  | .mb0 => t.d0
  | .mb1 => t.d1
  | .mb2 => t.d2

/-- DeadlineTracker::replace (lib.rs 238-241): store a deadline, return the
previous one. -/
def DeadlineTracker.replace (t : DeadlineTracker) (m : Mailbox) (v : Nat) :
    Option Nat × DeadlineTracker :=
  match m with
  | .mb0 => (t.d0, { t with d0 := some v })
  | .mb1 => (t.d1, { t with d1 := some v })
  | .mb2 => (t.d2, { t with d2 := some v })

/-- Outcome of one hardware transmit attempt: would-block, or acceptance into a
mailbox possibly displacing a lower-priority pending frame. -/
inductive TxOutcome where
  | wouldBlock
  | accepted (mailbox : Mailbox) (dequeued : Option BxFrame)
deriving DecidableEq

/-- Model of the bxCAN peripheral: a scripted list of transmit outcomes consumed
one per Can::transmit call (an exhausted script blocks), the log of frames
handed to Can::transmit, and the log of Can::abort calls. -/
structure CanHw where
  script : List TxOutcome
  transmitted : List BxFrame
  abortLog : List Mailbox
deriving DecidableEq

/-- Can::abort on the hardware model. -/
def CanHw.abort (hw : CanHw) (m : Mailbox) : CanHw :=
  { hw with abortLog := hw.abortLog ++ [m] }

/-- Can::transmit on the hardware model: the frame is always handed to the
hardware; the scripted outcome decides what the hardware reports. -/
def CanHw.transmit (hw : CanHw) (f : BxFrame) : TxOutcome × CanHw :=
  match hw.script with
  | [] => (.wouldBlock, { hw with transmitted := hw.transmitted ++ [f] })
  | o :: rest =>
    (o, { script := rest, transmitted := hw.transmitted ++ [f], abortLog := hw.abortLog })

/-- One loop iteration of clean_expired_frames (lib.rs 204-212): abort the
mailbox when its tracked deadline has passed. -/
def cleanOneMailbox (t : DeadlineTracker) (now : Nat) (hw : CanHw) (m : Mailbox) : CanHw :=
  match t.get m with
  | some deadline =>
    if overflowSafeCompare now deadline = .gt then hw.abort m else hw
  | none => hw

/-- Shallow embedding of clean_expired_frames (lib.rs 199-213): walk the three
mailboxes and abort each one whose deadline is strictly earlier than now. The
function takes the tracker and the hardware by mutable reference; both are
returned, which makes it visible that the tracker is passed through without
being written. -/
def cleanExpiredFrames (t : DeadlineTracker) (hw : CanHw) (now : Nat) :
    DeadlineTracker × CanHw :=
  (t, cleanOneMailbox t now
        (cleanOneMailbox t now (cleanOneMailbox t now hw .mb0) .mb1) .mb2)

/-- State of BxCanDriver (lib.rs 37-43): the wrapped CAN peripheral and the
deadline tracker. -/
structure BxCanDriver where
  can : CanHw
  deadlines : DeadlineTracker
deriving DecidableEq

/-- Shallow embedding of BxCanDriver::try_reserve (lib.rs 80-88): one frame is
optimistically accepted, anything else is refused because there is no
in-memory queue. -/
def bxTryReserve (d : BxCanDriver) (frames : Nat) : OomResult × BxCanDriver :=
  if frames = 1 then (.ok, d) else (.memErr, d)

/-- Result of BxCanDriver::transmit in the nb style (the driver error type is
Infallible): success with an optional displaced frame, or would-block. -/
inductive BxTransmitResult where
  | ok (dequeued : Option CanFrame)
  | wouldBlock
deriving DecidableEq

/-- Modelled from the spec: validity of a 29-bit Cyphal/CAN identifier
(CanId::try_from in canadensis_can, not under src/). The value must fit in 29
bits and the reserved bit must be clear: bit 23 for service frames (bit 25
set), bit 7 for message frames (bit 25 clear). -/
def canIdValid (n : Nat) : Bool :=
  decide (n < 2 ^ 29) &&
    (if n.testBit 25 then !(n.testBit 23) else !(n.testBit 7))

/-- Shallow embedding of uavcan_frame_to_bxcan (lib.rs 249-253). The value none
models the panics: ExtendedId::new fails above 29 bits and bxcan::Data::new
fails above 8 data bytes. The result is always a data frame. -/
def uavcanFrameToBxcan (f : CanFrame) : Option BxFrame :=
  if f.id < 2 ^ 29 then
    if f.data.length ≤ 8 then some { id := .extended f.id, data := some f.data }
    else none
  else none

/-- Result of bxcan_frame_to_uavcan. -/
inductive FrameConvResult where
  | ok (f : CanFrame)
  | invalidFrameFormat
deriving DecidableEq

/-- Shallow embedding of bxcan_frame_to_uavcan (lib.rs 259-274): require an
extended ID, a valid Cyphal CAN ID, and present data. -/
def bxcanFrameToUavcan (f : BxFrame) (timestamp : Nat) : FrameConvResult :=
  match f.id with
  | .standard _ => .invalidFrameFormat
  | .extended raw =>
    if canIdValid raw then
      match f.data with
      | some d => .ok { timestamp := timestamp, id := raw, data := d }
      | none => .invalidFrameFormat
    else .invalidFrameFormat

/-- Shallow embedding of BxCanDriver::transmit (lib.rs 90-127): clean expired
mailboxes, drop the frame if its own deadline has passed, otherwise convert it
and hand it to the hardware, recording the deadline of an accepted frame in the
mailbox slot the hardware chose. The value none models the panic inside
uavcan_frame_to_bxcan. -/
def bxTransmit (d : BxCanDriver) (frame : CanFrame) (now : Nat) :
    Option (BxTransmitResult × BxCanDriver) :=
  let cleaned := cleanExpiredFrames d.deadlines d.can now
  match overflowSafeCompare frame.timestamp now with
  | .lt => some (.ok none, { can := cleaned.2, deadlines := cleaned.1 })
  | _ =>
    match uavcanFrameToBxcan frame with
    | none => none
    | some bx =>
      let tr := cleaned.2.transmit bx
      match tr.1 with
      | .wouldBlock => some (.wouldBlock, { can := tr.2, deadlines := cleaned.1 })
      | .accepted m dq =>
        let rep := cleaned.1.replace m frame.timestamp
        let res : BxTransmitResult :=
          match dq, rep.1 with
          | some removedFrame, some removedDeadline =>
            match bxcanFrameToUavcan removedFrame removedDeadline with
            | .ok uf => .ok (some uf)
            | .invalidFrameFormat => .ok none
          | _, _ => .ok none
        some (res, { can := tr.2, deadlines := rep.2 })

theorem cleanOneMailbox_transmitted (t : DeadlineTracker) (now : Nat) (hw : CanHw)
    (m : Mailbox) : (cleanOneMailbox t now hw m).transmitted = hw.transmitted := by
  unfold cleanOneMailbox
  cases t.get m with
  | none => rfl
  | some dl =>
    by_cases h : overflowSafeCompare now dl = .gt <;> simp [h, CanHw.abort]

theorem cleanOneMailbox_script (t : DeadlineTracker) (now : Nat) (hw : CanHw)
    (m : Mailbox) : (cleanOneMailbox t now hw m).script = hw.script := by
  unfold cleanOneMailbox
  cases t.get m with
  | none => rfl
  | some dl =>
    by_cases h : overflowSafeCompare now dl = .gt <;> simp [h, CanHw.abort]

theorem cleanOneMailbox_abortLog_mono (t : DeadlineTracker) (now : Nat) (hw : CanHw)
    (m x : Mailbox) (hx : x ∈ hw.abortLog) : x ∈ (cleanOneMailbox t now hw m).abortLog := by
  unfold cleanOneMailbox
  cases t.get m with
  | none => exact hx
  | some dl =>
    by_cases h : overflowSafeCompare now dl = .gt <;> simp [h, CanHw.abort, hx]

theorem cleanOneMailbox_mem_self (t : DeadlineTracker) (now : Nat) (hw : CanHw)
    (m : Mailbox) (dl : Nat) (hm : t.get m = some dl)
    (hc : overflowSafeCompare now dl = .gt) :
    m ∈ (cleanOneMailbox t now hw m).abortLog := by
  unfold cleanOneMailbox
  simp [hm, hc, CanHw.abort]

theorem cleanExpiredFrames_transmitted (t : DeadlineTracker) (hw : CanHw) (now : Nat) :
    (cleanExpiredFrames t hw now).2.transmitted = hw.transmitted := by
  unfold cleanExpiredFrames
  simp [cleanOneMailbox_transmitted]

theorem cleanExpiredFrames_script (t : DeadlineTracker) (hw : CanHw) (now : Nat) :
    (cleanExpiredFrames t hw now).2.script = hw.script := by
  unfold cleanExpiredFrames
  simp [cleanOneMailbox_script]

theorem cleanExpiredFrames_aborts (t : DeadlineTracker) (hw : CanHw) (now : Nat)
    (m : Mailbox) (dl : Nat) (hm : t.get m = some dl)
    (hc : overflowSafeCompare now dl = .gt) :
    m ∈ (cleanExpiredFrames t hw now).2.abortLog := by
  unfold cleanExpiredFrames
  cases m with
  | mb0 =>
    exact cleanOneMailbox_abortLog_mono _ _ _ _ _
      (cleanOneMailbox_abortLog_mono _ _ _ _ _
        (cleanOneMailbox_mem_self _ _ _ _ _ hm hc))
  | mb1 =>
    exact cleanOneMailbox_abortLog_mono _ _ _ _ _
      (cleanOneMailbox_mem_self _ _ _ _ _ hm hc)
  | mb2 => exact cleanOneMailbox_mem_self _ _ _ _ _ hm hc

theorem canHw_transmit_abortLog (hw : CanHw) (f : BxFrame) :
    ((hw.transmit f).2).abortLog = hw.abortLog := by
  obtain ⟨scr, tx, ab⟩ := hw
  cases scr <;> rfl

theorem canHw_transmit_of_script (hw : CanHw) (f : BxFrame) (o : TxOutcome)
    (rest : List TxOutcome) (h : hw.script = o :: rest) :
    hw.transmit f =
      (o, { script := rest, transmitted := hw.transmitted ++ [f],
            abortLog := hw.abortLog }) := by
  unfold CanHw.transmit
  rw [h]

theorem deadlineTracker_get_replace (t : DeadlineTracker) (m : Mailbox) (v : Nat) :
    ((t.replace m v).2).get m = some v := by
  cases m <;> rfl

/-- C3: on every BxCanDriver::transmit call, every mailbox whose tracked
deadline is strictly earlier than now (in the wraparound-safe order) is
aborted first; then, if the frame deadline itself is strictly earlier than
now, the frame is never handed to the hardware and the call returns Ok(None). -/
theorem bx_transmit_deadline_discipline (d : BxCanDriver) (f : CanFrame) (now : Nat)
    (hid : f.id < 2 ^ 29) (hdata : f.data.length ≤ 8) :
    ∃ res d2, bxTransmit d f now = some (res, d2) ∧
      (∀ m dl, d.deadlines.get m = some dl → overflowSafeCompare now dl = .gt →
        m ∈ d2.can.abortLog) ∧
      (overflowSafeCompare f.timestamp now = .lt →
        res = .ok none ∧ d2.can.transmitted = d.can.transmitted) := by
  have hconv : uavcanFrameToBxcan f = some ⟨.extended f.id, some f.data⟩ := by
    unfold uavcanFrameToBxcan
    rw [if_pos hid, if_pos hdata]
  unfold bxTransmit
  cases hcmp : overflowSafeCompare f.timestamp now with
  | lt =>
    refine ⟨.ok none, _, rfl, fun m dl hm hgt => ?_, fun _ => ⟨rfl, ?_⟩⟩
    · exact cleanExpiredFrames_aborts _ _ _ _ _ hm hgt
    · exact cleanExpiredFrames_transmitted _ _ _
  | eq =>
    simp only [hconv]
    cases htr :
        ((cleanExpiredFrames d.deadlines d.can now).2.transmit
          ⟨.extended f.id, some f.data⟩).1 with
    | wouldBlock =>
      simp only [htr]
      refine ⟨_, _, rfl, fun m dl hm hgt => ?_, fun hlt => by simp at hlt⟩
      have h1 := cleanExpiredFrames_aborts d.deadlines d.can now m dl hm hgt
      simpa [canHw_transmit_abortLog] using h1
    | accepted m2 dq =>
      simp only [htr]
      refine ⟨_, _, rfl, fun m dl hm hgt => ?_, fun hlt => by simp at hlt⟩
      have h1 := cleanExpiredFrames_aborts d.deadlines d.can now m dl hm hgt
      simpa [canHw_transmit_abortLog] using h1
  | gt =>
    simp only [hconv]
    cases htr :
        ((cleanExpiredFrames d.deadlines d.can now).2.transmit
          ⟨.extended f.id, some f.data⟩).1 with
    | wouldBlock =>
      simp only [htr]
      refine ⟨_, _, rfl, fun m dl hm hgt => ?_, fun hlt => by simp at hlt⟩
      have h1 := cleanExpiredFrames_aborts d.deadlines d.can now m dl hm hgt
      simpa [canHw_transmit_abortLog] using h1
    | accepted m2 dq =>
      simp only [htr]
      refine ⟨_, _, rfl, fun m dl hm hgt => ?_, fun hlt => by simp at hlt⟩
      have h1 := cleanExpiredFrames_aborts d.deadlines d.can now m dl hm hgt
      simpa [canHw_transmit_abortLog] using h1

/-- Closed witness for C3: an expired frame (deadline 3, now 10) on a driver
with an expired deadline (5) tracked for mailbox 0. -/
theorem bx_transmit_deadline_discipline_witness :
    (0 : Nat) < 2 ^ 29 ∧ ([] : List Nat).length ≤ 8 ∧
    (∃ res d2,
      bxTransmit ⟨⟨[], [], []⟩, ⟨some 5, none, none⟩⟩ ⟨3, 0, []⟩ 10 = some (res, d2) ∧
      (∀ m dl, DeadlineTracker.get ⟨some 5, none, none⟩ m = some dl →
        overflowSafeCompare 10 dl = .gt → m ∈ d2.can.abortLog) ∧
      (overflowSafeCompare 3 10 = .lt →
        res = .ok none ∧ d2.can.transmitted = [])) :=
  ⟨by decide, by decide,
    bx_transmit_deadline_discipline ⟨⟨[], [], []⟩, ⟨some 5, none, none⟩⟩ ⟨3, 0, []⟩ 10
      (by decide) (by decide)⟩

/-- C4 counterexample: at now = 10 with deadline 5 tracked for mailbox 0,
clean_expired_frames aborts mailbox 0 but the deadline-tracker slot for that
mailbox still holds the old deadline afterwards: the slot is not cleared on
abort, contradicting the claim that a slot holds a deadline only while its
mailbox holds a pending frame. -/
theorem deadline_slot_survives_abort :
    (cleanExpiredFrames ⟨some 5, none, none⟩ ⟨[], [], []⟩ 10).2.abortLog = [.mb0] ∧
    (cleanExpiredFrames ⟨some 5, none, none⟩ ⟨[], [], []⟩ 10).1.get .mb0 = some 5 ∧
    (cleanExpiredFrames ⟨some 5, none, none⟩ ⟨[], [], []⟩ 10).1.get .mb0 ≠ none := by
  refine ⟨?_, ?_, ?_⟩ <;> decide

/-- C4 amended: a deadline-tracker entry is written on successful hardware
enqueue, but it is never cleared: clean_expired_frames aborts expired mailboxes
without touching the tracker, so a stale deadline stays in the slot until the
next successful enqueue into the same mailbox overwrites it via replace. -/
theorem deadline_tracker_write_only_on_enqueue
    (t : DeadlineTracker) (hw : CanHw) (now : Nat)
    (d : BxCanDriver) (f : CanFrame) (now2 : Nat) (m : Mailbox)
    (dq : Option BxFrame) (rest : List TxOutcome) (bx : BxFrame)
    (hnl : overflowSafeCompare f.timestamp now2 ≠ .lt)
    (hconv : uavcanFrameToBxcan f = some bx)
    (hscript : d.can.script = TxOutcome.accepted m dq :: rest) :
    (cleanExpiredFrames t hw now).1 = t ∧
    (∃ res d2, bxTransmit d f now2 = some (res, d2) ∧
      d2.deadlines.get m = some f.timestamp) := by
  refine ⟨rfl, ?_⟩
  have hscript2 : (cleanExpiredFrames d.deadlines d.can now2).2.script = d.can.script :=
    cleanExpiredFrames_script _ _ _
  have htr := canHw_transmit_of_script (cleanExpiredFrames d.deadlines d.can now2).2 bx
    (TxOutcome.accepted m dq) rest (hscript2.trans hscript)
  unfold bxTransmit
  cases hcmp : overflowSafeCompare f.timestamp now2 with
  | lt => exact absurd hcmp hnl
  | eq =>
    simp only [hconv, htr]
    exact ⟨_, _, rfl, deadlineTracker_get_replace _ _ _⟩
  | gt =>
    simp only [hconv, htr]
    exact ⟨_, _, rfl, deadlineTracker_get_replace _ _ _⟩

/-- Closed witness for C4 amended: a fresh frame accepted into mailbox 1
records its deadline there. -/
theorem deadline_tracker_write_only_on_enqueue_witness :
    overflowSafeCompare 20 10 ≠ .lt ∧
    uavcanFrameToBxcan ⟨20, 7, [1]⟩ = some ⟨.extended 7, some [1]⟩ ∧
    CanHw.script ⟨[TxOutcome.accepted .mb1 none], [], []⟩ =
      TxOutcome.accepted .mb1 none :: [] ∧
    ((cleanExpiredFrames ⟨none, none, none⟩ ⟨[TxOutcome.accepted .mb1 none], [], []⟩ 0).1 =
      ⟨none, none, none⟩ ∧
    (∃ res d2,
      bxTransmit ⟨⟨[TxOutcome.accepted .mb1 none], [], []⟩, ⟨none, none, none⟩⟩
          ⟨20, 7, [1]⟩ 10 = some (res, d2) ∧
      d2.deadlines.get .mb1 = some 20)) :=
  ⟨by decide, by decide, by decide,
    deadline_tracker_write_only_on_enqueue ⟨none, none, none⟩
      ⟨[TxOutcome.accepted .mb1 none], [], []⟩ 0
      ⟨⟨[TxOutcome.accepted .mb1 none], [], []⟩, ⟨none, none, none⟩⟩
      ⟨20, 7, [1]⟩ 10 .mb1 none [] ⟨.extended 7, some [1]⟩
      (by decide) (by decide) (by decide)⟩

/-- C6: BxCanDriver::try_reserve(1) always returns Ok, whatever the driver and
hardware state; the reservation is optimistic and the transmit itself is
authoritative. -/
theorem bx_try_reserve_optimistic (d : BxCanDriver) : bxTryReserve d 1 = (.ok, d) := rfl

/-- C9: converting a Cyphal frame with a valid CAN ID and at most 8 data bytes
to a bxCAN frame and back succeeds and preserves the CAN ID and the data bytes
while taking the supplied timestamp; and bxcan_frame_to_uavcan returns
InvalidFrameFormat exactly when the bxCAN frame lacks an extended ID, has an ID
that is not a valid Cyphal CAN ID, or carries no data. -/
theorem bxcan_frame_roundtrip (f : CanFrame) (ts : Nat)
    (hdata : f.data.length ≤ 8) (hvalid : canIdValid f.id = true) :
    (∃ bx, uavcanFrameToBxcan f = some bx ∧
      bxcanFrameToUavcan bx ts = .ok ⟨ts, f.id, f.data⟩) ∧
    (∀ (bid : BxId) (bdata : Option (List Nat)),
      bxcanFrameToUavcan ⟨bid, bdata⟩ ts = .invalidFrameFormat ↔
        ((∀ raw, bid ≠ .extended raw) ∨
          (∃ raw, bid = .extended raw ∧ canIdValid raw = false) ∨ bdata = none)) := by
  constructor
  · have hid : f.id < 2 ^ 29 := by
      have := hvalid
      unfold canIdValid at this
      simp only [Bool.and_eq_true, decide_eq_true_eq] at this
      exact this.1
    refine ⟨⟨.extended f.id, some f.data⟩, ?_, ?_⟩
    · unfold uavcanFrameToBxcan
      rw [if_pos hid, if_pos hdata]
    · unfold bxcanFrameToUavcan
      simp only [hvalid, if_true]
  · intro bid bdata
    cases bid with
    | standard s =>
      simp only [bxcanFrameToUavcan, true_iff]
      exact Or.inl (fun raw h => by cases h)
    | extended raw =>
      by_cases hv : canIdValid raw
      · cases bdata with
        | none => simp [bxcanFrameToUavcan, hv]
        | some dd =>
          simp only [bxcanFrameToUavcan, hv, if_true]
          constructor
          · intro h
            cases h
          · rintro (h | ⟨raw2, heq, hfalse⟩ | h)
            · exact absurd rfl (h raw)
            · cases heq
              rw [hv] at hfalse
              cases hfalse
            · cases h
      · simp only [bxcanFrameToUavcan, Bool.not_eq_true] at hv ⊢
        simp [hv]

/-- Closed witness for C9 at the heartbeat CAN ID with three data bytes. -/
theorem bxcan_frame_roundtrip_witness :
    List.length [1, 2, 3] ≤ 8 ∧ canIdValid 0x107D552A = true ∧
    ((∃ bx, uavcanFrameToBxcan ⟨0, 0x107D552A, [1, 2, 3]⟩ = some bx ∧
      bxcanFrameToUavcan bx 7 = .ok ⟨7, 0x107D552A, [1, 2, 3]⟩) ∧
    (∀ (bid : BxId) (bdata : Option (List Nat)),
      bxcanFrameToUavcan ⟨bid, bdata⟩ 7 = .invalidFrameFormat ↔
        ((∀ raw, bid ≠ .extended raw) ∨
          (∃ raw, bid = .extended raw ∧ canIdValid raw = false) ∨ bdata = none))) :=
  ⟨by decide, by decide,
    bxcan_frame_roundtrip ⟨0, 0x107D552A, [1, 2, 3]⟩ 7 (by decide) (by decide)⟩

/-! ## Classic-CAN transfer fragmentor

The CanTransmitter implementation (canadensis_can/src/tx structures) is not
under src/; only its integration tests (canadensis_can/tests/tx.rs) are. The
definitions below are modelled from the spec, sections 4.1 and 4.2: the 29-bit
CAN ID codec with the bit-exact Cyphal/CAN wire format, the tail byte, the
7-byte classic-CAN fragmentation, and the big-endian CRC-16-CCITT-FALSE
appended to multi-frame transfers. -/

/-- Modelled from the spec: Priority::Nominal on the 3-bit scale (0 highest,
7 lowest) is 4. -/
def nominalPriority : Nat := 4

/-- Modelled from the spec: the 29-bit CAN ID of a message transfer. Priority
occupies bits 26-28, the service bit 25 is clear, the anonymous bit is 24, the
subject ID occupies bits 8-20 with bits 21-22 set per the bit-exact Cyphal/CAN
wire format, and the source node ID occupies bits 0-6. -/
def messageCanId (priority subject source : Nat) (anonymous : Bool) : Nat :=
  (priority <<< 26) ||| ((if anonymous then 1 else 0) <<< 24) ||| (3 <<< 21) |||
    (subject <<< 8) ||| source

/-- Modelled from the spec: the 29-bit CAN ID of a service transfer. Priority
occupies bits 26-28, the service bit 25 is set, bit 24 distinguishes request
from response, the service ID occupies bits 14-22, the destination node ID bits
7-13, and the source node ID bits 0-6. -/
def serviceCanId (priority service destination source : Nat) (isRequest : Bool) : Nat :=
  (priority <<< 26) ||| (1 <<< 25) ||| ((if isRequest then 1 else 0) <<< 24) |||
    (service <<< 14) ||| (destination <<< 7) ||| source

/-- Modelled from the spec: one bit step of CRC-16-CCITT-FALSE (polynomial
0x1021, no reflection). -/
def crc16BitStep (crc : Nat) : Nat :=
  if crc.testBit 15 then ((crc <<< 1) ^^^ 0x1021) % 2 ^ 16 else (crc <<< 1) % 2 ^ 16

/-- Modelled from the spec: folds one byte into a CRC-16-CCITT-FALSE state. -/
def crc16Byte (crc b : Nat) : Nat :=
  crc16BitStep^[8] (crc ^^^ ((b % 256) <<< 8))

/-- Modelled from the spec: CRC-16-CCITT-FALSE with initial value 0xFFFF. -/
def crc16 (data : List Nat) : Nat := data.foldl crc16Byte 0xFFFF

/-- Modelled from the spec: the tail byte packs start-of-transfer, end-of-
transfer, toggle, and the low 5 bits of the transfer ID. -/
def tailByte (sot eot toggle : Bool) (tid : Nat) : Nat :=
  (if sot then 128 else 0) + (if eot then 64 else 0) +
    (if toggle then 32 else 0) + tid % 32

/-- Modelled from the spec: split a byte stream into classic-CAN frame data
blocks of at most 7 payload bytes plus a tail byte, with the toggle alternating
from frame to frame and end-of-transfer set on the final block. -/
def canFramesAux : Nat → List Nat → Bool → Bool → Nat → List (List Nat)
  | 0, _, _, _, _ => []
  | fuel + 1, stream, sot, toggle, tid =>
    if stream.length ≤ 7 then [stream ++ [tailByte sot true toggle tid]]
    else (stream.take 7 ++ [tailByte sot false toggle tid]) ::
      canFramesAux fuel (stream.drop 7) false (!toggle) tid

/-- Modelled from the spec: CanTransmitter::push for classic CAN (MTU 8). A
payload of at most 7 bytes becomes a single frame whose tail byte has
SoT = EoT = toggle = 1; a longer payload is followed by its big-endian
CRC-16-CCITT-FALSE and split into 7-byte chunks, the toggle starting at 1 and
alternating. Every frame carries the transfer timestamp and the transfer CAN
ID. -/
def canPush (timestamp canId tid : Nat) (payload : List Nat) : List CanFrame :=
  if payload.length ≤ 7 then
    [⟨timestamp, canId, payload ++ [tailByte true true true tid]⟩]
  else
    let crc := crc16 payload
    let stream := payload ++ [crc / 2 ^ 8 % 256, crc % 256]
    (canFramesAux (stream.length + 1) stream true true tid).map
      (fun d => ⟨timestamp, canId, d⟩)

/-- C7: pushing the heartbeat message transfer (payload
[00 00 00 00 04 78 68], subject 7509, nominal priority, source node 42,
transfer ID 0) produces exactly one frame with CAN ID 0x107D552A and data
[00 00 00 00 04 78 68 E0], the tail byte having SoT = EoT = toggle = 1 and
transfer ID 0; this matches test_heartbeat in canadensis_can/tests/tx.rs. -/
theorem can_heartbeat_single_frame :
    canPush 0 (messageCanId nominalPriority 7509 42 false) 0
        [0x00, 0x00, 0x00, 0x00, 0x04, 0x78, 0x68] =
      [⟨0, 0x107D552A, [0x00, 0x00, 0x00, 0x00, 0x04, 0x78, 0x68, 0xE0]⟩] ∧
    tailByte true true true 0 = 0xE0 := by
  constructor <;> decide

/-- The 69-byte node-info response payload of scenario 3
(test_node_info_response in canadensis_can/tests/tx.rs). -/
def nodeInfoPayload : List Nat :=
  [0x01, 0x00, 0x00, 0x00, 0x01, 0x00, 0x00,
   0x00, 0x00, 0x00, 0x00, 0x00, 0x00, 0x00,
   0x00, 0x00, 0x00, 0x00, 0x00, 0x00, 0x00,
   0x00, 0x00, 0x00, 0x00, 0x00, 0x00, 0x00,
   0x00, 0x00, 0x24, 0x6F, 0x72, 0x67, 0x2E,
   0x75, 0x61, 0x76, 0x63, 0x61, 0x6E, 0x2E,
   0x70, 0x79, 0x75, 0x61, 0x76, 0x63, 0x61,
   0x6E, 0x2E, 0x64, 0x65, 0x6D, 0x6F, 0x2E,
   0x62, 0x61, 0x73, 0x69, 0x63, 0x5F, 0x75,
   0x73, 0x61, 0x67, 0x65, 0x00, 0x00]

set_option maxRecDepth 16384 in
theorem nodeInfoPayload_crc : crc16 nodeInfoPayload = 0x9AE7 := by
  have h1 : List.foldl crc16Byte 0xFFFF
      [0x01, 0x00, 0x00, 0x00, 0x01, 0x00, 0x00,
       0x00, 0x00, 0x00, 0x00, 0x00, 0x00, 0x00,
       0x00, 0x00, 0x00, 0x00, 0x00, 0x00, 0x00,
       0x00, 0x00] = 32066 := by decide
  have h2 : List.foldl crc16Byte 32066
      [0x00, 0x00, 0x00, 0x00, 0x00, 0x00, 0x00,
       0x24, 0x6F, 0x72, 0x67, 0x2E,
       0x75, 0x61, 0x76, 0x63, 0x61, 0x6E, 0x2E,
       0x70, 0x79, 0x75, 0x61] = 13076 := by decide
  have h3 : List.foldl crc16Byte 13076
      [0x76, 0x63, 0x61,
       0x6E, 0x2E, 0x64, 0x65, 0x6D, 0x6F, 0x2E,
       0x62, 0x61, 0x73, 0x69, 0x63, 0x5F, 0x75,
       0x73, 0x61, 0x67, 0x65, 0x00, 0x00] = 0x9AE7 := by decide
  have hsplit : nodeInfoPayload =
      [0x01, 0x00, 0x00, 0x00, 0x01, 0x00, 0x00,
       0x00, 0x00, 0x00, 0x00, 0x00, 0x00, 0x00,
       0x00, 0x00, 0x00, 0x00, 0x00, 0x00, 0x00,
       0x00, 0x00] ++
      ([0x00, 0x00, 0x00, 0x00, 0x00, 0x00, 0x00,
        0x24, 0x6F, 0x72, 0x67, 0x2E,
        0x75, 0x61, 0x76, 0x63, 0x61, 0x6E, 0x2E,
        0x70, 0x79, 0x75, 0x61] ++
       [0x76, 0x63, 0x61,
        0x6E, 0x2E, 0x64, 0x65, 0x6D, 0x6F, 0x2E,
        0x62, 0x61, 0x73, 0x69, 0x63, 0x5F, 0x75,
        0x73, 0x61, 0x67, 0x65, 0x00, 0x00]) := by rfl
  unfold crc16
  rw [hsplit, List.foldl_append, List.foldl_append, h1, h2, h3]

set_option maxRecDepth 4096 in
theorem nodeInfoFrames_eq :
    canPush 0 (serviceCanId nominalPriority 430 123 42 false) 1 nodeInfoPayload =
      [⟨0, 0x126BBDAA, [0x01, 0x00, 0x00, 0x00, 0x01, 0x00, 0x00, 0xA1]⟩,
       ⟨0, 0x126BBDAA, [0x00, 0x00, 0x00, 0x00, 0x00, 0x00, 0x00, 0x01]⟩,
       ⟨0, 0x126BBDAA, [0x00, 0x00, 0x00, 0x00, 0x00, 0x00, 0x00, 0x21]⟩,
       ⟨0, 0x126BBDAA, [0x00, 0x00, 0x00, 0x00, 0x00, 0x00, 0x00, 0x01]⟩,
       ⟨0, 0x126BBDAA, [0x00, 0x00, 0x24, 0x6F, 0x72, 0x67, 0x2E, 0x21]⟩,
       ⟨0, 0x126BBDAA, [0x75, 0x61, 0x76, 0x63, 0x61, 0x6E, 0x2E, 0x01]⟩,
       ⟨0, 0x126BBDAA, [0x70, 0x79, 0x75, 0x61, 0x76, 0x63, 0x61, 0x21]⟩,
       ⟨0, 0x126BBDAA, [0x6E, 0x2E, 0x64, 0x65, 0x6D, 0x6F, 0x2E, 0x01]⟩,
       ⟨0, 0x126BBDAA, [0x62, 0x61, 0x73, 0x69, 0x63, 0x5F, 0x75, 0x21]⟩,
       ⟨0, 0x126BBDAA, [0x73, 0x61, 0x67, 0x65, 0x00, 0x00, 0x9A, 0x01]⟩,
       ⟨0, 0x126BBDAA, [0xE7, 0x61]⟩] := by
  unfold canPush
  rw [if_neg (by decide : ¬(nodeInfoPayload.length ≤ 7))]
  rw [nodeInfoPayload_crc]
  decide

/-- C8 counterexample: the scenario-3 service response has a 69-byte payload,
not a 30-byte one, and its last frame is [E7 61] - the byte before the tail is
0xE7, the second transfer CRC byte, so the last frame does not carry the CRC
bytes [9A 01] before its tail byte ([9A] is the final data byte of the tenth
frame and [01] is the toggle-0 tail byte of that frame). -/
theorem node_info_response_crc_placement :
    nodeInfoPayload.length = 69 ∧ nodeInfoPayload.length ≠ 30 ∧
    ((canPush 0 (serviceCanId nominalPriority 430 123 42 false) 1
        nodeInfoPayload).getLast?).map CanFrame.data = some [0xE7, 0x61] ∧
    ([0xE7, 0x61] : List Nat) ≠ [0x9A, 0x01, 0x61] := by
  refine ⟨by decide, by decide, ?_, by decide⟩
  rw [nodeInfoFrames_eq]
  decide

/-- C8 amended: pushing the scenario-3 service response (69-byte payload,
transfer ID 1, nominal priority, service 430, source 42, destination 123) into
the classic-CAN transmitter yields exactly the 11 frames of the test corpus on
CAN ID 0x126BBDAA, with the tail-byte toggle alternating 1,0,1,...; the
transfer CRC is 0x9AE7 (big-endian), split across the last two frames: 0x9A is
the final data byte of the tenth frame and 0xE7 the sole data byte of the
eleventh, before its tail byte 0x61. -/
theorem node_info_response_frames :
    canPush 0 (serviceCanId nominalPriority 430 123 42 false) 1 nodeInfoPayload =
      [⟨0, 0x126BBDAA, [0x01, 0x00, 0x00, 0x00, 0x01, 0x00, 0x00, 0xA1]⟩,
       ⟨0, 0x126BBDAA, [0x00, 0x00, 0x00, 0x00, 0x00, 0x00, 0x00, 0x01]⟩,
       ⟨0, 0x126BBDAA, [0x00, 0x00, 0x00, 0x00, 0x00, 0x00, 0x00, 0x21]⟩,
       ⟨0, 0x126BBDAA, [0x00, 0x00, 0x00, 0x00, 0x00, 0x00, 0x00, 0x01]⟩,
       ⟨0, 0x126BBDAA, [0x00, 0x00, 0x24, 0x6F, 0x72, 0x67, 0x2E, 0x21]⟩,
       ⟨0, 0x126BBDAA, [0x75, 0x61, 0x76, 0x63, 0x61, 0x6E, 0x2E, 0x01]⟩,
       ⟨0, 0x126BBDAA, [0x70, 0x79, 0x75, 0x61, 0x76, 0x63, 0x61, 0x21]⟩,
       ⟨0, 0x126BBDAA, [0x6E, 0x2E, 0x64, 0x65, 0x6D, 0x6F, 0x2E, 0x01]⟩,
       ⟨0, 0x126BBDAA, [0x62, 0x61, 0x73, 0x69, 0x63, 0x5F, 0x75, 0x21]⟩,
       ⟨0, 0x126BBDAA, [0x73, 0x61, 0x67, 0x65, 0x00, 0x00, 0x9A, 0x01]⟩,
       ⟨0, 0x126BBDAA, [0xE7, 0x61]⟩] ∧
    crc16 nodeInfoPayload = 0x9AE7 ∧
    (tailByte true false true 1 = 0xA1 ∧ tailByte false false false 1 = 0x01 ∧
      tailByte false false true 1 = 0x21 ∧ tailByte false true true 1 = 0x61) :=
  ⟨nodeInfoFrames_eq, nodeInfoPayload_crc, by decide, by decide, by decide⟩

/-! ## Bit array: canadensis_encoding/src/bits.rs -/

/-- BitArray (bits.rs 12-15): a byte array plus a bit length. The const generic
parameter BYTES of the Rust type is the length of the byte list here; the
constructor invariant of BitArray::new, bit_length at most 8 * BYTES, is an
explicit hypothesis of the theorem below. -/
structure BitArray where
  bytes : List Nat
  bitLength : Nat
deriving DecidableEq

/-- Shallow embedding of BitArray::split_index (bits.rs 113-119); none models
the assertion failure when the bit index is not below the bit length. -/
def splitIndex (a : BitArray) (bitIndex : Nat) : Option (Nat × Nat) :=
  if bitIndex < a.bitLength then some (bitIndex / 8, bitIndex % 8) else none

/-- Shallow embedding of BitArray::get (bits.rs 37-42); none models the
assertion failure propagated from split_index. -/
def BitArray.get (a : BitArray) (bitIndex : Nat) : Option Bool :=
  match splitIndex a bitIndex with
  | none => none
  | some (byteIndex, bitInByte) =>
    some ((a.bytes.getD byteIndex 0 >>> bitInByte) &&& 1 == 1)

/-- Shallow embedding of BitArray::set (bits.rs 45-54); none models the
assertion failure propagated from split_index. The complement of a u8 mask is
255 ^^^ mask. -/
def BitArray.set (a : BitArray) (bitIndex : Nat) (value : Bool) : Option BitArray :=
  match splitIndex a bitIndex with
  | none => none
  | some (byteIndex, bitInByte) =>
    let mask := 1 <<< bitInByte
    let byte := a.bytes.getD byteIndex 0
    let newByte := if value then byte ||| mask else byte &&& (255 ^^^ mask)
    some { a with bytes := a.bytes.set byteIndex newByte }

theorem natBitSel_eq_testBit (x k : Nat) : ((x >>> k) &&& 1 == 1) = x.testBit k := by
  rw [Nat.shiftRight_eq_div_pow, Nat.and_one_is_mod, Nat.testBit_to_div_mod]
  rcases Nat.mod_two_eq_zero_or_one (x / 2 ^ k) with h | h <;> simp [h]

theorem testBit255 : ∀ k, k < 8 → Nat.testBit 255 k = true := by decide

theorem setByte_testBit_eq (B k : Nat) (hk : k < 8) (v : Bool) :
    (if v then B ||| (1 <<< k) else B &&& (255 ^^^ (1 <<< k))).testBit k = v := by
  have hm : (1 : Nat) <<< k = 2 ^ k := by rw [Nat.shiftLeft_eq, one_mul]
  cases v with
  | true => simp [hm, Nat.testBit_or, Nat.testBit_two_pow_self]
  | false =>
    simp [hm, Nat.testBit_and, Nat.testBit_xor, Nat.testBit_two_pow_self,
      testBit255 k hk]

theorem setByte_testBit_ne (B k k2 : Nat) (hk2 : k2 < 8) (hne : k2 ≠ k) (v : Bool) :
    (if v then B ||| (1 <<< k) else B &&& (255 ^^^ (1 <<< k))).testBit k2 = B.testBit k2 := by
  have hm : (1 : Nat) <<< k = 2 ^ k := by rw [Nat.shiftLeft_eq, one_mul]
  cases v with
  | true => simp [hm, Nat.testBit_or, Nat.testBit_two_pow_of_ne (Ne.symm hne)]
  | false =>
    simp [hm, Nat.testBit_and, Nat.testBit_xor, Nat.testBit_two_pow_of_ne (Ne.symm hne),
      testBit255 k2 hk2]

theorem bitArray_get_as_testBit (a : BitArray) (j : Nat) (hj : j < a.bitLength) :
    a.get j = some ((a.bytes.getD (j / 8) 0).testBit (j % 8)) := by
  unfold BitArray.get splitIndex
  rw [if_pos hj]
  show some ((a.bytes.getD (j / 8) 0 >>> (j % 8)) &&& 1 == 1) = _
  rw [natBitSel_eq_testBit]

/-- C10: for every BitArray whose bit length respects the byte-capacity
invariant of BitArray::new, setting an in-range bit i to v makes get i return
v while get j is unchanged for every other in-range index j; and both get and
set hit the split_index assertion failure (modelled as none) when the index is
at or beyond the bit length. -/
theorem bitarray_get_set (a : BitArray) (i : Nat) (v : Bool)
    (hlen : a.bitLength ≤ 8 * a.bytes.length) :
    (i < a.bitLength →
      ∃ a2, a.set i v = some a2 ∧
        a2.get i = some v ∧
        (∀ j, j < a.bitLength → j ≠ i → a2.get j = a.get j)) ∧
    (a.bitLength ≤ i → a.get i = none ∧ a.set i v = none) := by
  constructor
  · intro hi
    have hbyte : i / 8 < a.bytes.length := by omega
    refine ⟨⟨a.bytes.set (i / 8)
        (if v then a.bytes.getD (i / 8) 0 ||| (1 <<< (i % 8))
         else a.bytes.getD (i / 8) 0 &&& (255 ^^^ (1 <<< (i % 8)))),
        a.bitLength⟩, ?_, ?_, ?_⟩
    · simp [BitArray.set, splitIndex, hi]
    · have hget := bitArray_get_as_testBit
        ⟨a.bytes.set (i / 8)
          (if v then a.bytes.getD (i / 8) 0 ||| (1 <<< (i % 8))
           else a.bytes.getD (i / 8) 0 &&& (255 ^^^ (1 <<< (i % 8)))),
          a.bitLength⟩ i hi
      rw [hget]
      have hgd : (a.bytes.set (i / 8)
          (if v then a.bytes.getD (i / 8) 0 ||| (1 <<< (i % 8))
           else a.bytes.getD (i / 8) 0 &&& (255 ^^^ (1 <<< (i % 8))))).getD (i / 8) 0 =
          (if v then a.bytes.getD (i / 8) 0 ||| (1 <<< (i % 8))
           else a.bytes.getD (i / 8) 0 &&& (255 ^^^ (1 <<< (i % 8)))) := by
        rw [List.getD_eq_getElem?_getD, List.getElem?_set_eq_of_lt _ hbyte]
        rfl
      rw [hgd, setByte_testBit_eq _ _ (Nat.mod_lt i (by norm_num)) v]
    · intro j hj hne
      have hgetj := bitArray_get_as_testBit
        ⟨a.bytes.set (i / 8)
          (if v then a.bytes.getD (i / 8) 0 ||| (1 <<< (i % 8))
           else a.bytes.getD (i / 8) 0 &&& (255 ^^^ (1 <<< (i % 8)))),
          a.bitLength⟩ j hj
      rw [hgetj, bitArray_get_as_testBit a j hj]
      by_cases hb : j / 8 = i / 8
      · have hgd : (a.bytes.set (i / 8)
            (if v then a.bytes.getD (i / 8) 0 ||| (1 <<< (i % 8))
             else a.bytes.getD (i / 8) 0 &&& (255 ^^^ (1 <<< (i % 8))))).getD (j / 8) 0 =
            (if v then a.bytes.getD (i / 8) 0 ||| (1 <<< (i % 8))
             else a.bytes.getD (i / 8) 0 &&& (255 ^^^ (1 <<< (i % 8)))) := by
          rw [hb, List.getD_eq_getElem?_getD, List.getElem?_set_eq_of_lt _ hbyte]
          rfl
        have hkne : j % 8 ≠ i % 8 := by omega
        rw [hgd, setByte_testBit_ne _ _ _ (Nat.mod_lt j (by norm_num)) hkne v, hb]
      · have hgd : (a.bytes.set (i / 8)
            (if v then a.bytes.getD (i / 8) 0 ||| (1 <<< (i % 8))
             else a.bytes.getD (i / 8) 0 &&& (255 ^^^ (1 <<< (i % 8))))).getD (j / 8) 0 =
            a.bytes.getD (j / 8) 0 := by
          rw [List.getD_eq_getElem?_getD,
            List.getElem?_set_ne (fun h => hb h.symm), List.getD_eq_getElem?_getD]
        rw [hgd]
  · intro hge
    constructor
    · unfold BitArray.get splitIndex
      rw [if_neg (by omega : ¬i < a.bitLength)]
    · unfold BitArray.set splitIndex
      rw [if_neg (by omega : ¬i < a.bitLength)]

/-- Closed witness for C10 on a one-byte array of bit length 8, setting bit 2. -/
theorem bitarray_get_set_witness :
    BitArray.bitLength ⟨[0], 8⟩ ≤ 8 * (BitArray.bytes ⟨[0], 8⟩).length ∧
    ((2 < BitArray.bitLength ⟨[0], 8⟩ →
      ∃ a2, BitArray.set ⟨[0], 8⟩ 2 true = some a2 ∧
        a2.get 2 = some true ∧
        (∀ j, j < BitArray.bitLength ⟨[0], 8⟩ → j ≠ 2 →
          a2.get j = BitArray.get ⟨[0], 8⟩ j)) ∧
    (BitArray.bitLength ⟨[0], 8⟩ ≤ 2 →
      BitArray.get ⟨[0], 8⟩ 2 = none ∧ BitArray.set ⟨[0], 8⟩ 2 true = none)) :=
  ⟨by decide, bitarray_get_set ⟨[0], 8⟩ 2 true (by decide)⟩
